import Mathlib

/-!
Verification of the screenplay-format conversion core.

The development shallowly embeds three Python functions of the repository:

* `Imdb.convert_to_fountain` — `imdb-top250-screenplays/converter.py`,
  the IMSDb HTML → Fountain converter (extraction, per-line forward
  classification, blank-run collapse);
* `SP.convert_to_fountain` — `south-park-transcripts/converter.py`,
  the transcript HTML → Fountain converter;
* `SP.parse_fountain` and `SP.fountain_to_html` —
  `south-park-transcripts/convert_to_pdf.py`, the reverse Fountain parser
  and the HTML renderer it feeds.

Python strings are modelled as `List Char`.  The case functions
(`Char.toUpper`, `Char.toLower`, `Char.isUpper`, `Char.isLower`) use the
ASCII case model, which agrees with CPython on ASCII text; line splitting
models LF-terminated text (the only line terminator the pipelines emit).
Python operations that can raise (`list[i]` indexing) are modelled with
`Option`; everything else in the sources is total.
-/

/-! ### Python string primitives -/

/-- The characters Python's `str.strip`/`str.split` treat as whitespace
(ASCII part of the Unicode whitespace class). -/
def isPyWS (c : Char) : Bool :=
  c = ' ' || c = '\t' || c = '\n' || c = '\r' || c = '\x0b' || c = '\x0c'

/-- Python `str.lstrip()`. -/
def pyLstrip (cs : List Char) : List Char := cs.dropWhile isPyWS

/-- Python `str.rstrip()`. -/
def pyRstrip (cs : List Char) : List Char := (cs.reverse.dropWhile isPyWS).reverse

/-- Python `str.strip()`. -/
def pyStrip (cs : List Char) : List Char := pyRstrip (pyLstrip cs)

/-- Python `str.isupper()`: at least one cased character and no lower-case
character (ASCII model). -/
def pyIsUpper (cs : List Char) : Bool :=
  cs.any Char.isUpper && cs.all fun c => !c.isLower

/-- Python `str.upper()` (ASCII model). -/
def pyUpper (cs : List Char) : List Char := cs.map Char.toUpper

/-- Python `str.lower()` (ASCII model). -/
def pyLower (cs : List Char) : List Char := cs.map Char.toLower

/-- Python `needle in hay` substring test. -/
def hasSub (needle hay : List Char) : Bool :=
  (List.range (hay.length + 1)).any fun i => needle.isPrefixOf (hay.drop i)

/-- Python `str.split(sep)` for a one-character separator (no maxsplit). -/
def pySplit (sep : Char) : List Char → List (List Char)
  | [] => [[]]
  | c :: rest =>
    if c = sep then [] :: pySplit sep rest
    else
      match pySplit sep rest with
      | [] => [[c]]
      | g :: gs => (c :: g) :: gs

/-- Python `str.split(sep, 1)` for a one-character separator. -/
def pySplitOnce (sep : Char) (cs : List Char) : List (List Char) :=
  if (cs.dropWhile fun c => c ≠ sep).isEmpty then [cs]
  else [cs.takeWhile fun c => c ≠ sep, (cs.dropWhile fun c => c ≠ sep).drop 1]

/-- Python `str.splitlines()` restricted to LF-terminated text: like
`split('\n')` but without a final empty piece for a trailing newline. -/
def pySplitlines (cs : List Char) : List (List Char) :=
  let ps := pySplit '\n' cs
  if ps.getLast? = some [] then ps.dropLast else ps

/-- Python `str.find(needle)` (index of leftmost occurrence, `-1` if none). -/
def pyFind (needle hay : List Char) : Int :=
  match (List.range (hay.length + 1)).find? (fun i => needle.isPrefixOf (hay.drop i)) with
  | some i => i
  | none => -1

/-- Python `str.rfind(needle)` (index of rightmost occurrence, `-1` if none). -/
def pyRfind (needle hay : List Char) : Int :=
  match ((List.range (hay.length + 1)).filter fun i => needle.isPrefixOf (hay.drop i)).getLast? with
  | some i => i
  | none => -1

/-- Python slicing `s[a:b]` for non-negative bounds. -/
def pySlice (cs : List Char) (a b : Nat) : List Char := (cs.take b).drop a

/-! ### Character-level facts (ASCII case model) -/

theorem char_toNat_ofNat_small (n : Nat) (h : n < 55296) : (Char.ofNat n).toNat = n := by
  have hv : n.isValidChar := Or.inl h
  simp [Char.ofNat, hv, Char.ofNatAux, Char.toNat, UInt32.toNat]

theorem char_toNat_injective {c d : Char} (h : c.toNat = d.toNat) : c = d :=
  Char.ext (UInt32.toNat.inj h)

theorem char_eq_iff_toNat {c d : Char} : c = d ↔ c.toNat = d.toNat :=
  ⟨fun h => h ▸ rfl, char_toNat_injective⟩

theorem isLower_iff (c : Char) : c.isLower = true ↔ 97 ≤ c.toNat ∧ c.toNat ≤ 122 := by
  simp [Char.isLower, UInt32.le_def, BitVec.le_def, Char.toNat, UInt32.toNat]

theorem isUpper_iff (c : Char) : c.isUpper = true ↔ 65 ≤ c.toNat ∧ c.toNat ≤ 90 := by
  simp [Char.isUpper, UInt32.le_def, BitVec.le_def, Char.toNat, UInt32.toNat]

theorem isDigit_iff (c : Char) : c.isDigit = true ↔ 48 ≤ c.toNat ∧ c.toNat ≤ 57 := by
  simp [Char.isDigit, UInt32.le_def, BitVec.le_def, Char.toNat, UInt32.toNat]

theorem toUpper_toNat (c : Char) :
    c.toUpper.toNat = if 97 ≤ c.toNat ∧ c.toNat ≤ 122 then c.toNat - 32 else c.toNat := by
  by_cases h : 97 ≤ c.toNat ∧ c.toNat ≤ 122
  · rw [if_pos h]
    show (if c.toNat ≥ 97 ∧ c.toNat ≤ 122 then Char.ofNat (c.toNat - 32) else c).toNat = _
    rw [if_pos ⟨h.1, h.2⟩, char_toNat_ofNat_small _ (by omega)]
  · rw [if_neg h]
    show (if c.toNat ≥ 97 ∧ c.toNat ≤ 122 then Char.ofNat (c.toNat - 32) else c).toNat = _
    rw [if_neg (fun hc => h ⟨hc.1, hc.2⟩)]

theorem toLower_toNat (c : Char) :
    c.toLower.toNat = if 65 ≤ c.toNat ∧ c.toNat ≤ 90 then c.toNat + 32 else c.toNat := by
  by_cases h : 65 ≤ c.toNat ∧ c.toNat ≤ 90
  · rw [if_pos h]
    show (if c.toNat ≥ 65 ∧ c.toNat ≤ 90 then Char.ofNat (c.toNat + 32) else c).toNat = _
    rw [if_pos ⟨h.1, h.2⟩, char_toNat_ofNat_small _ (by omega)]
  · rw [if_neg h]
    show (if c.toNat ≥ 65 ∧ c.toNat ≤ 90 then Char.ofNat (c.toNat + 32) else c).toNat = _
    rw [if_neg (fun hc => h ⟨hc.1, hc.2⟩)]

theorem toUpper_eq_self {c : Char} (hr : ¬(97 ≤ c.toNat ∧ c.toNat ≤ 122)) : c.toUpper = c := by
  apply char_toNat_injective
  rw [toUpper_toNat, if_neg hr]

theorem toLower_eq_self {c : Char} (hr : ¬(65 ≤ c.toNat ∧ c.toNat ≤ 90)) : c.toLower = c := by
  apply char_toNat_injective
  rw [toLower_toNat, if_neg hr]

theorem isPyWS_toNat (c : Char) :
    isPyWS c = true ↔ c.toNat = 32 ∨ c.toNat = 9 ∨ c.toNat = 10 ∨ c.toNat = 13 ∨
      c.toNat = 11 ∨ c.toNat = 12 := by
  have h32 : (' ' : Char).toNat = 32 := rfl
  have h9 : ('\t' : Char).toNat = 9 := rfl
  have h10 : ('\n' : Char).toNat = 10 := rfl
  have h13 : ('\r' : Char).toNat = 13 := rfl
  have h11 : ('\x0b' : Char).toNat = 11 := rfl
  have h12 : ('\x0c' : Char).toNat = 12 := rfl
  simp only [isPyWS, Bool.or_eq_true, decide_eq_true_eq, char_eq_iff_toNat, h32, h9, h10,
    h13, h11, h12]
  tauto

theorem isPyWS_toUpper (c : Char) : isPyWS c.toUpper = isPyWS c := by
  by_cases hr : 97 ≤ c.toNat ∧ c.toNat ≤ 122
  · have h1 : isPyWS c = false := by
      rw [Bool.eq_false_iff]
      intro hws
      have := (isPyWS_toNat c).mp hws
      omega
    have h2 : isPyWS c.toUpper = false := by
      rw [Bool.eq_false_iff]
      intro hws
      have := (isPyWS_toNat c.toUpper).mp hws
      rw [toUpper_toNat, if_pos hr] at this
      omega
    rw [h1, h2]
  · rw [toUpper_eq_self hr]

theorem toUpper_idem (c : Char) : c.toUpper.toUpper = c.toUpper := by
  by_cases h : 97 ≤ c.toNat ∧ c.toNat ≤ 122
  · apply toUpper_eq_self
    rw [toUpper_toNat, if_pos h]
    omega
  · simp [toUpper_eq_self h]

theorem toLower_toUpper (c : Char) : c.toUpper.toLower = c.toLower := by
  by_cases h : 97 ≤ c.toNat ∧ c.toNat ≤ 122
  · apply char_toNat_injective
    rw [toLower_toNat, toUpper_toNat, if_pos h, if_pos (by omega), toLower_toNat,
      if_neg (by omega)]
    omega
  · rw [toUpper_eq_self h]

theorem toUpper_eq_of_lt65 (c d : Char) (hd : d.toNat < 65) :
    (c.toUpper = d) ↔ (c = d) := by
  by_cases h : 97 ≤ c.toNat ∧ c.toNat ≤ 122
  · constructor
    · intro he
      exfalso
      have := congrArg Char.toNat he
      rw [toUpper_toNat, if_pos h] at this
      omega
    · intro he
      exfalso
      have := congrArg Char.toNat he
      omega
  · rw [toUpper_eq_self h]

theorem isDigit_toUpper (c : Char) : c.toUpper.isDigit = c.isDigit := by
  by_cases h : 97 ≤ c.toNat ∧ c.toNat ≤ 122
  · have h1 : c.isDigit = false := by
      rw [Bool.eq_false_iff]
      intro hd
      have := (isDigit_iff c).mp hd
      omega
    have h2 : c.toUpper.isDigit = false := by
      rw [Bool.eq_false_iff]
      intro hd
      have := (isDigit_iff c.toUpper).mp hd
      rw [toUpper_toNat, if_pos h] at this
      omega
    rw [h1, h2]
  · rw [toUpper_eq_self h]

theorem toLower_eq_colon {c : Char} (h : c.toLower = ':') : c = ':' := by
  by_cases hr : 65 ≤ c.toNat ∧ c.toNat ≤ 90
  · exfalso
    have := congrArg Char.toNat h
    rw [toLower_toNat, if_pos hr] at this
    have hc : (':' : Char).toNat = 58 := rfl
    omega
  · rwa [toLower_eq_self hr] at h

/-! ### Regular-expression fragments used by the converters -/

/-- Case-insensitive match of a literal pattern at the start of the input;
returns the unconsumed rest on success (models `re.IGNORECASE` literals). -/
def matchCI : List Char → List Char → Option (List Char)
  | [], cs => some cs
  | _ :: _, [] => none
  | p :: ps, c :: cs => if p.toLower = c.toLower then matchCI ps cs else none

/-- The tail `\.?\s+` of the scene-heading pattern: an optional dot followed
by at least one whitespace character (after a dot the `\s+` must still find
whitespace, since `.` is not whitespace no backtracking case remains). -/
def sceneTailOk : List Char → Bool
  | [] => false
  | c :: rest =>
    if c = '.' then
      match rest.head? with
      | some d => isPyWS d
      | none => false
    else isPyWS c

/-- The alternatives `INT|EXT|I/E|INT/EXT` of the scene-heading pattern. -/
def sceneAlts : List (List Char) := ["INT".data, "EXT".data, "I/E".data, "INT/EXT".data]

/-- Anchored match of `(INT|EXT|I/E|INT/EXT)\.?\s+`, case-insensitively
(`re.match` of the reverse pipeline's scene-heading pattern). -/
def sceneAltOk (cs : List Char) : Bool :=
  sceneAlts.any fun alt =>
    match matchCI alt cs with
    | some rest => sceneTailOk rest
    | none => false

/-- Anchored match of `\d+\s+` (both runs greedy, as in the regex); returns
the rest after the digits and whitespace. -/
def digitWsDrop? (cs : List Char) : Option (List Char) :=
  let ds := cs.takeWhile Char.isDigit
  if ds.isEmpty then none
  else
    let r1 := cs.drop ds.length
    let ws := r1.takeWhile isPyWS
    if ws.isEmpty then none else some (r1.drop ws.length)

/-- Anchored match of `^(\d+\s+)?(INT|EXT|I/E|INT/EXT)\.?\s+`
(the forward pipeline's scene-heading pattern). -/
def sceneMatchFwd (cs : List Char) : Bool :=
  sceneAltOk cs ||
    match digitWsDrop? cs with
    | some rest => sceneAltOk rest
    | none => false

/-- `re.sub(r'^\d+\s+', '', s)`: strip a leading scene number. -/
def stripSceneNum (cs : List Char) : List Char :=
  match digitWsDrop? cs with
  | some rest => rest
  | none => cs

/-! ### Whole-string regex substitutions of the extraction phase -/

/-- Match of `[^>]*>` (the closing part of a tag pattern): drop up to the
first `'>'` and return what follows it. -/
def tagClose? (cs : List Char) : Option (List Char) :=
  match cs.dropWhile (fun d => d ≠ '>') with
  | '>' :: r => some r
  | _ => none

/-- Anchored match of `<[^>]+>`; returns the rest after the tag. -/
def tagAnyEnd? : List Char → Option (List Char)
  | '<' :: rest =>
    match rest.head? with
    | none => none
    | some c => if c = '>' then none else tagClose? rest
  | _ => none

/-- The optional `/?` after `<` in the tag patterns: drop one leading slash. -/
def slashDrop : List Char → List Char
  | '/' :: r => r
  | cs => cs

/-- Anchored case-insensitive match of `</?pre[^>]*>`; returns the rest. -/
def preTagEnd? : List Char → Option (List Char)
  | '<' :: rest => (matchCI "PRE".data (slashDrop rest)).bind tagClose?
  | _ => none

/-- Anchored match of `</?b>`; returns the rest. -/
def bTagEnd? : List Char → Option (List Char)
  | '<' :: '/' :: 'b' :: '>' :: r => some r
  | '<' :: 'b' :: '>' :: r => some r
  | _ => none

/-- `re.sub(pattern, '', text)` for a pattern recognised by the anchored
matcher `m`: scan left to right, deleting each leftmost non-overlapping match
and continuing after it.  The fuel argument only makes the recursion
structural: every successful match consumes at least one character and every
failure advances the scan by one character, so `fuel = cs.length` (as used by
`reSubDel`) always suffices. -/
def reSubDelFuel (m : List Char → Option (List Char)) : Nat → List Char → List Char
  | 0, cs => cs
  | _ + 1, [] => []
  | fuel + 1, c :: rest =>
    match m (c :: rest) with
    | some r => reSubDelFuel m fuel r
    | none => c :: reSubDelFuel m fuel rest

/-- `re.sub(pattern, '', text)` with the anchored matcher `m`. -/
def reSubDel (m : List Char → Option (List Char)) (cs : List Char) : List Char :=
  reSubDelFuel m cs.length cs

/-! ### Shared extraction phase -/

/-- `re.sub(r'</?pre[^>]*>', '', text, flags=re.IGNORECASE)`. -/
def stripPreTags : List Char → List Char := reSubDel preTagEnd?

/-- `re.sub(r'</?b>', '', text)`. -/
def stripBTags : List Char → List Char := reSubDel bTagEnd?

/-- `re.sub(r'<[^>]+>', '', text)`. -/
def stripAllTags : List Char → List Char := reSubDel tagAnyEnd?

/-- The named character references handled by the `html.unescape` model. -/
def entAlts : List (List Char × Char) :=
  [("&amp;".data, '&'), ("&lt;".data, '<'), ("&gt;".data, '>'), ("&quot;".data, '"')]

/-- Worker for `htmlUnescape`; as in `reSubDelFuel`, the fuel only makes the
recursion structural and `fuel = cs.length` always suffices. -/
def htmlUnescapeFuel : Nat → List Char → List Char
  | 0, cs => cs
  | _ + 1, [] => []
  | fuel + 1, c :: rest =>
    match entAlts.find? (fun e => e.1.isPrefixOf (c :: rest)) with
    | some e => e.2 :: htmlUnescapeFuel fuel ((c :: rest).drop e.1.length)
    | none => c :: htmlUnescapeFuel fuel rest

/-- Models Python's `html.unescape`, restricted to the predefined XML named
references `&amp; &lt; &gt; &quot;`; all other text, including unknown
references, passes through unchanged.  (No verified property depends on the
wider entity table.) -/
def htmlUnescape (cs : List Char) : List Char := htmlUnescapeFuel cs.length cs

/-- The `<pre>`-block slice shared by both converters (the transcript variant
also inspects the final value of the Python variable `pre_start`, returned
here as the second component). -/
def preSlice (text : List Char) : List Char × Int :=
  let ps := pyFind "<pre>".data text
  let pe := pyRfind "</pre>".data text
  if ps ≠ -1 ∧ ps < pe then (pySlice text ps.toNat pe.toNat, ps)
  else
    let ps2 := pyFind "<pre ".data text
    if ps2 ≠ -1 then
      (if ps2 < pe then pySlice text ps2.toNat pe.toNat else text, ps2)
    else (text, ps2)

/-- A line that stops the header-skip scan: non-empty after stripping and not
beginning with `<`, `//` or `if ` (the redundant `len > 0` test of the source
is subsumed by the non-emptiness test). -/
def contentLike (line : List Char) : Bool :=
  let stripped := pyStrip line
  !stripped.isEmpty && !("<".data.isPrefixOf stripped) && !("//".data.isPrefixOf stripped) &&
    !("if ".data.isPrefixOf stripped)

/-- The header-skip start index: the first content-like line, minus one, when
it occurs before `threshold`; `0` otherwise (the loop breaks only in the
`i < threshold` case, and a later content-like line can never satisfy it). -/
def headerSkipIdx (threshold : Nat) (lines : List (List Char)) : Nat :=
  match lines.findIdx? contentLike with
  | some i => if i < threshold then i - 1 else 0
  | none => 0

/-! ### Forward converter, IMSDb variant (`imdb-top250-screenplays/converter.py`) -/

namespace Imdb

/-- The transition test of the forward classifier:
`stripped.isupper() and (stripped.endswith(':') or ' TO:' in stripped or
stripped.startswith('FADE TO'))`. -/
def transCondFwd (stripped : List Char) : Bool :=
  pyIsUpper stripped &&
    ([':'].isSuffixOf stripped || hasSub " TO:".data stripped ||
      "FADE TO".data.isPrefixOf stripped)

/-- One iteration of the forward per-line classification loop (lines 57–99 of
the source): the single line appended to `fountain_lines` for one raw line. -/
def emitLine (line : List Char) : List Char :=
  let stripped := pyStrip line
  if stripped.isEmpty then []
  else if sceneMatchFwd stripped then pyUpper (stripSceneNum stripped)
  else if transCondFwd stripped then "> ".data ++ stripped
  else
    let lw := line.length - (pyLstrip line).length
    if 20 ≤ lw ∧ pyIsUpper stripped then stripped
    else if (10 ≤ lw ∧ lw < 20) ∧ ¬pyIsUpper stripped then stripped
    else if (10 ≤ lw ∧ lw < 25) ∧ "(".data.isPrefixOf stripped ∧ ")".data.isSuffixOf stripped then
      stripped
    else if (4 ≤ lw ∧ lw < 10) ∧ pyIsUpper stripped ∧ stripped.length < 30 then stripped
    else stripped

/-- The forward per-line loop: `fountain_lines` after processing all lines. -/
def fountainPass (lines : List (List Char)) : List (List Char) :=
  lines.foldl (fun acc line => acc ++ [emitLine line]) []

end Imdb

/-- `re.sub(r'\n{3,}', '\n\n', output)`: flush a pending newline run,
collapsing it to two newlines when it has three or more. -/
def nlFlush (pending : Nat) : List Char :=
  if 3 ≤ pending then ['\n', '\n'] else List.replicate pending '\n'

/-- Worker for `collapseNL`, carrying the length of the current newline run. -/
def collapseGo : List Char → Nat → List Char
  | [], pending => nlFlush pending
  | c :: cs, pending =>
    if c = '\n' then collapseGo cs (pending + 1)
    else nlFlush pending ++ c :: collapseGo cs 0

/-- `re.sub(r'\n{3,}', '\n\n', output)` over the whole string: every maximal
run of three or more newlines becomes exactly two. -/
def collapseNL (cs : List Char) : List Char := collapseGo cs 0

namespace Imdb

/-- `convert_to_fountain` of `imdb-top250-screenplays/converter.py`: extract
the `<pre>` block, strip markup, skip the HTML header, classify line by line
and collapse blank-line runs.  Total: no operation of the source can raise. -/
def convert_to_fountain (html_content : List Char) : List Char :=
  let text := (preSlice html_content).1
  let text := stripPreTags text
  let text := stripBTags text
  let text := htmlUnescape text
  let text := stripAllTags text
  let lines := pySplit '\n' text
  let start_idx := headerSkipIdx 30 lines
  let lines := if 0 < start_idx then lines.drop start_idx else lines
  let text := List.intercalate ['\n'] lines
  let lines2 := pySplitlines text
  collapseNL (List.intercalate ['\n'] (fountainPass lines2))

end Imdb

/-! ### Forward converter, transcript variant (`south-park-transcripts/converter.py`) -/

namespace SP

/-- One iteration of the transcript converter's per-line loop (lines 55–98 of
the source): the lines appended to `fountain_lines` for one raw line (the
`CHARACTER: dialogue` rule can append two). -/
def emitLines (line : List Char) : List (List Char) :=
  let stripped := pyStrip line
  if stripped.isEmpty then [[]]
  else if sceneAltOk stripped then [pyUpper stripped]
  else
    let leading_whitespace := line.length - (pyLstrip line).length
    if 4 ≤ leading_whitespace ∧ pyIsUpper stripped ∧ ¬hasSub [':'] stripped ∧
        stripped.length < 40 then
      [stripped]
    else if hasSub [':'] stripped ∧
        pyIsUpper (pyStrip ((pySplitOnce ':' stripped).getD 0 [])) ∧
        (pyStrip ((pySplitOnce ':' stripped).getD 0 [])).length < 40 then
      pyStrip ((pySplitOnce ':' stripped).getD 0 []) ::
        (if 1 < (pySplitOnce ':' stripped).length ∧
            ¬(pyStrip ((pySplitOnce ':' stripped).getD 1 [])).isEmpty then
          [pyStrip ((pySplitOnce ':' stripped).getD 1 [])]
        else [])
    else if pyIsUpper stripped ∧ (hasSub "FADE".data stripped ∨ hasSub "CUT TO".data stripped ∨
        hasSub "DISSOLVE".data stripped ∨ hasSub "SMASH CUT".data stripped) then
      ["> ".data ++ stripped]
    else [stripped]

/-- `convert_to_fountain` of `south-park-transcripts/converter.py`.  Unlike
the IMSDb variant it returns the empty string when no `<pre>` opening tag was
found, and it strips the final output. -/
def convert_to_fountain (html_content : List Char) : List Char :=
  let sliced := preSlice html_content
  if sliced.2 = -1 then []
  else
    let text := stripPreTags sliced.1
    let text := stripBTags text
    let text := htmlUnescape text
    let text := stripAllTags text
    let lines := pySplit '\n' text
    let start_idx := headerSkipIdx 20 lines
    let lines := if 0 < start_idx then lines.drop start_idx else lines
    let fountain_lines := lines.foldl (fun acc line => acc ++ emitLines line) []
    pyStrip (collapseNL (List.intercalate ['\n'] fountain_lines))

/-! ### Reverse parser and renderer (`south-park-transcripts/convert_to_pdf.py`) -/

/-- The element kinds produced by `parse_fountain` (the renderer additionally
knows a `centered` kind, which the parser never produces and which is
therefore not constructible here). -/
inductive ElemType
  | title
  | scene_heading
  | transition
  | character
  | parenthetical
  | dialogue
  | action
deriving DecidableEq, BEq

/-- One parsed element: the `{'type': ..., 'text': ...}` dictionaries of the
source. -/
structure Element where
  type : ElemType
  text : List Char
deriving DecidableEq, BEq

/-- The first non-blank line after the current one (the `next_idx` scan of
the character rule). -/
def nextNonBlank? (rest : List (List Char)) : Option (List Char) :=
  rest.find? fun l => !(pyStrip l).isEmpty

/-- The look-ahead test of the character rule: some next non-blank line
exists and its stripped text is not upper case or starts with `(`. -/
def lookaheadOk (rest : List (List Char)) : Bool :=
  match nextNonBlank? rest with
  | some nl => !pyIsUpper (pyStrip nl) || "(".data.isPrefixOf (pyStrip nl)
  | none => false

/-- One iteration of the `parse_fountain` loop for the (already right-
stripped) current line, with `rest` the lines after it (used only by the
character rule's look-ahead).  Blank lines produce no element.  The title
rule's `line.split(':', 1)[1]` indexing is modelled fallibly with `Option`;
it cannot actually fail (see `classifyRev_isSome`). -/
def classifyRev (line : List Char) (rest : List (List Char)) : Option (List Element) :=
  if (pyStrip line).isEmpty then some []
  else if "title:".data.isPrefixOf (pyLower line) then
    match (pySplitOnce ':' line).get? 1 with
    | some v => some [⟨ElemType.title, pyStrip v⟩]
    | none => none
  else if sceneAltOk line then some [⟨ElemType.scene_heading, line⟩]
  else if pyIsUpper line ∧ (hasSub "FADE".data line ∨ hasSub "CUT TO".data line ∨
      hasSub "DISSOLVE".data line ∨ hasSub "SMASH CUT".data line) then
    some [⟨ElemType.transition, line⟩]
  else if ">".data.isPrefixOf line then some [⟨ElemType.transition, pyStrip (line.drop 1)⟩]
  else if pyIsUpper line ∧ line.length < 40 ∧ ¬"(".data.isPrefixOf line ∧
      lookaheadOk rest then
    some [⟨ElemType.character, line⟩]
  else if "(".data.isPrefixOf line ∧ ")".data.isSuffixOf line then
    some [⟨ElemType.parenthetical, line⟩]
  else
    let indent := line.length - (pyLstrip line).length
    if 20 ≤ indent then some [⟨ElemType.character, pyStrip line⟩]
    else if 10 ≤ indent then some [⟨ElemType.dialogue, pyStrip line⟩]
    else some [⟨ElemType.action, pyStrip line⟩]

/-- The `parse_fountain` loop over the remaining lines. -/
def parseLines : List (List Char) → Option (List Element)
  | [] => some []
  | l :: rest =>
    match classifyRev (pyRstrip l) rest with
    | some es =>
      match parseLines rest with
      | some tail => some (es ++ tail)
      | none => none
    | none => none

/-- `parse_fountain` of `south-park-transcripts/convert_to_pdf.py`. -/
def parse_fountain (content : List Char) : Option (List Element) :=
  parseLines (pySplit '\n' content)

/-- The title-resolution loop of `fountain_to_html` (lines 168–173): the
passed-in title is kept when non-empty; otherwise the first `title` element
provides it. -/
def resolveTitle (elements : List Element) (title : List Char) : List Char :=
  if title.isEmpty then
    match elements.find? (fun e => e.type == ElemType.title) with
    | some e => e.text
    | none => title
  else title

/-- The markup fragment emitted for one element (the `elif` chain of
`fountain_to_html`); `title` elements produce nothing there. -/
def elemHtml (e : Element) : List (List Char) :=
  match e.type with
  | ElemType.scene_heading => ["<div class=\"scene-heading\">".data ++ e.text ++ "</div>".data]
  | ElemType.action => ["<div class=\"action\">".data ++ e.text ++ "</div>".data]
  | ElemType.character => ["<div class=\"character\">".data ++ e.text ++ "</div>".data]
  | ElemType.dialogue => ["<div class=\"dialogue\">".data ++ e.text ++ "</div>".data]
  | ElemType.parenthetical => ["<div class=\"parenthetical\">".data ++ e.text ++ "</div>".data]
  | ElemType.transition => ["<div class=\"transition\">".data ++ e.text ++ "</div>".data]
  | ElemType.title => []

/-- `fountain_to_html` of `south-park-transcripts/convert_to_pdf.py`. -/
def fountain_to_html (fountain_content : List Char) (title : List Char) : Option (List Char) :=
  match parse_fountain fountain_content with
  | none => none
  | some elements =>
    let t := resolveTitle elements title
    let parts := ["<html><head><meta charset=\"utf-8\"></head><body>".data]
    let parts := if t.isEmpty then parts
      else parts ++ ["<div class=\"title-header\"><h1>".data ++ t ++ "</h1></div>".data]
    let parts := parts ++ elements.foldl (fun acc e => acc ++ elemHtml e) []
    some (List.intercalate ['\n'] (parts ++ ["</body></html>".data]))

end SP

/-! ### Claim C1: transition round-trip -/

/-- C1, counterexample.  Parsing the Fountain line `"> CUT TO:"` in the
reverse direction does classify it as a `transition`, but its text is the
whole line `"> CUT TO:"` — the `>` marker is *not* stripped, because the
upper-case transition rule (`line.isupper() and 'CUT TO' in line`) fires
before the marker-stripping `>` rule. -/
theorem c1_counterexample :
    SP.parse_fountain "> CUT TO:".data =
      some [⟨SP.ElemType.transition, "> CUT TO:".data⟩] ∧
    "> CUT TO:".data ≠ "CUT TO:".data := by
  constructor
  · decide
  · decide

/-- C1, amended.  The forward classifier emits `"CUT TO:"` as `"> CUT TO:"`;
the reverse parser classifies `"> CUT TO:"` as a `transition` element whose
text is `"> CUT TO:"` with the marker retained (the upper-case transition
rule precedes the marker rule). -/
theorem c1_transition_amended :
    Imdb.emitLine "CUT TO:".data = "> CUT TO:".data ∧
    SP.parse_fountain "> CUT TO:".data =
      some [⟨SP.ElemType.transition, "> CUT TO:".data⟩] := by
  constructor
  · decide
  · decide

/-! ### Claim C2: idempotence of forward emission -/

/-- C2, counterexample.  A second pass of the forward classifier over the
already-emitted transition line `"> CUT TO:"` does not leave it unchanged:
`"> CUT TO:".isupper()` still holds and it still ends with `':'`, so the
transition rule fires again and prepends a second `"> "` marker. -/
theorem c2_counterexample :
    Imdb.emitLine "CUT TO:".data = "> CUT TO:".data ∧
    Imdb.emitLine (Imdb.emitLine "CUT TO:".data) = "> > CUT TO:".data ∧
    Imdb.emitLine (Imdb.emitLine "CUT TO:".data) ≠ Imdb.emitLine "CUT TO:".data := by
  refine ⟨by decide, by decide, by decide⟩

/-! ### Claim C3: blank-run collapse -/

/-- C3, counterexample.  An input with exactly `N = 2` blank lines between
two non-blank lines is *not* preserved: `"A\n\n\nB"` (two blank lines)
contains three consecutive newlines, which `re.sub(r'\n\x7b3,\x7d', '\n\n', ...)`
collapses to one blank line. -/
theorem c3_counterexample :
    Imdb.convert_to_fountain "A\n\n\nB".data = "A\n\nB".data ∧
    "A\n\nB".data ≠ "A\n\n\nB".data := by
  refine ⟨by decide, by decide⟩

/-! ### Claim C4: extraction failure on missing pre tag -/

/-- C4, counterexample.  For an input containing no `<pre>` opening tag at
all, the IMSDb-variant converter does not yield an empty or failure result:
it simply processes the entire document and here returns the non-empty
screenplay body `"hello"`. -/
theorem c4_counterexample :
    pyFind "<pre>".data "hello".data = -1 ∧
    pyFind "<pre ".data "hello".data = -1 ∧
    Imdb.convert_to_fountain "hello".data = "hello".data ∧
    Imdb.convert_to_fountain "hello".data ≠ [] := by
  refine ⟨by decide, by decide, by decide, by decide⟩

/-! ### Claim C5: title-hint fallback in reverse rendering -/

/-- C5, counterexample.  With the document `"Title: Foo"` (which has a
`Title:` line) and the non-empty hint `"Bar"`, the renderer resolves the
title to the *hint*, not to the document's own title line: the rendered
header shows `Bar` and the output does not mention `Foo` at all. -/
theorem c5_counterexample :
    SP.parse_fountain "Title: Foo".data = some [⟨SP.ElemType.title, "Foo".data⟩] ∧
    SP.fountain_to_html "Title: Foo".data "Bar".data =
      some ("<html><head><meta charset=\"utf-8\"></head><body>\n" ++
        "<div class=\"title-header\"><h1>Bar</h1></div>\n</body></html>").data ∧
    hasSub "Foo".data (("<html><head><meta charset=\"utf-8\"></head><body>\n" ++
      "<div class=\"title-header\"><h1>Bar</h1></div>\n</body></html>").data) = false := by
  refine ⟨by decide, by decide, by decide⟩

/-! ### Claim C6: one-to-one line mapping -/

/-- C6, counterexample.  A blank input line in the reverse direction yields
*zero* elements (the parser skips it), not one `Blank` element; and in the
transcript forward converter the single line `"STAN: hi"` yields *two*
output lines. -/
theorem c6_counterexample :
    SP.parse_fountain " ".data = some [] ∧
    SP.emitLines "STAN: hi".data = ["STAN".data, "hi".data] ∧
    (["STAN".data, "hi".data] : List (List Char)).length = 2 := by
  refine ⟨by decide, by decide, by decide⟩

/-! ### Claim C7: reverse character-cue rule -/

/-- C7, counterexample.  The line of ten spaces followed by 35 `A`s satisfies
every condition of the claim — its trimmed text is upper case, of length
35 < 40, does not start with `(`, the next non-blank line `"hello"` is not
upper case, and no earlier reverse rule matches — yet the parser classifies
it as `dialogue`, because the code applies the length test to the line
*with its leading whitespace* (length 45). -/
theorem c7_counterexample :
    pyIsUpper (pyStrip ("          ".data ++ List.replicate 35 'A')) = true ∧
    (pyStrip ("          ".data ++ List.replicate 35 'A')).length = 35 ∧
    SP.parse_fountain ("          ".data ++ List.replicate 35 'A' ++ "\nhello".data) =
      some [⟨SP.ElemType.dialogue, List.replicate 35 'A'⟩,
        ⟨SP.ElemType.action, "hello".data⟩] ∧
    SP.ElemType.dialogue ≠ SP.ElemType.character := by
  refine ⟨by decide, by decide, by decide, by decide⟩

/-! ### Claim C8: scene-heading normalization -/

/-- C8 (confirmed).  The input line `"  12   int. the house - day"` matches
the forward scene-heading rule and is emitted as `"INT. THE HOUSE - DAY"`:
the numeric scene number is stripped and the remainder upper-cased. -/
theorem c8_scene_heading_normalization :
    sceneMatchFwd (pyStrip "  12   int. the house - day".data) = true ∧
    Imdb.emitLine "  12   int. the house - day".data = "INT. THE HOUSE - DAY".data := by
  refine ⟨by decide, by decide⟩

/-! ### Claim C10: per-line locality and kind-irrelevance of forward emission -/

theorem foldl_append_singleton (f : List Char → List Char) (ls : List (List Char)) :
    ls.foldl (fun acc line => acc ++ [f line]) [] = ls.map f := by
  suffices h : ∀ acc, ls.foldl (fun acc line => acc ++ [f line]) acc = acc ++ ls.map f by
    simpa using h []
  induction ls with
  | nil => simp
  | cons l rest ih =>
    intro acc
    simp only [List.foldl_cons, List.map_cons, ih]
    simp

/-- C10 (confirmed).  The forward per-line pass maps each input line
independently through `emitLine` (one output line per input line, no state),
and every line matched by neither the scene-heading rule nor the transition
rule is emitted exactly as its whitespace-trimmed text — the
Character/Dialogue/Parenthetical/Action branches all append `stripped`. -/
theorem c10_locality :
    (∀ lines, Imdb.fountainPass lines = lines.map Imdb.emitLine) ∧
    (∀ line, sceneMatchFwd (pyStrip line) = false → Imdb.transCondFwd (pyStrip line) = false →
      Imdb.emitLine line = pyStrip line) := by
  constructor
  · intro lines
    exact foldl_append_singleton _ _
  · intro line h1 h2
    unfold Imdb.emitLine
    simp only [h1, h2]
    by_cases hb : (pyStrip line).isEmpty
    · simp only [hb, if_true]
      simpa using hb
    · simp only [hb, Bool.false_eq_true, if_false]
      repeat' split
      all_goals rfl

/-- C10, witness: the pass and the kind-irrelevance at concrete inputs. -/
theorem c10_witness :
    Imdb.fountainPass ["  indented line".data] = [Imdb.emitLine "  indented line".data] ∧
    Imdb.emitLine "          Hello there.".data = pyStrip "          Hello there.".data :=
  ⟨c10_locality.1 ["  indented line".data],
   c10_locality.2 "          Hello there.".data (by decide) (by decide)⟩

/-- C4, amended.  Only the transcript variant fails to empty on a missing
`<pre>` opening tag: for every input where both `find('<pre>')` and
`find('<pre ')` return `-1` it returns the empty string (and raises
nothing); the IMSDb variant instead processes the whole document and can
return it as a non-empty body, e.g. `"hello"` converts to `"hello"`. -/
theorem c4_extraction_amended :
    (∀ text, pyFind "<pre>".data text = -1 → pyFind "<pre ".data text = -1 →
      SP.convert_to_fountain text = []) ∧
    Imdb.convert_to_fountain "hello".data = "hello".data := by
  constructor
  · intro text h1 h2
    unfold SP.convert_to_fountain preSlice
    simp only [h1, h2]
    norm_num
  · decide

/-- C4, witness: the transcript variant returns empty on a concrete
pre-tag-free input. -/
theorem c4_witness : SP.convert_to_fountain "some html without the tag".data = [] :=
  c4_extraction_amended.1 "some html without the tag".data (by decide) (by decide)

theorem collapseGo_no_nl {b : List Char} (hb : '\n' ∉ b) : collapseGo b 0 = b := by
  induction b with
  | nil => rfl
  | cons c cs ih =>
    have hc : c ≠ '\n' := fun h => hb (h ▸ List.mem_cons_self c cs)
    simp only [collapseGo, if_neg hc, nlFlush]
    rw [ih (fun h => hb (List.mem_cons_of_mem c h))]
    simp

theorem collapseGo_pass {a : List Char} (rest : List Char) (ha : '\n' ∉ a) :
    collapseGo (a ++ rest) 0 = a ++ collapseGo rest 0 := by
  induction a with
  | nil => rfl
  | cons c cs ih =>
    have hc : c ≠ '\n' := fun h => ha (h ▸ List.mem_cons_self c cs)
    simp only [List.cons_append, collapseGo, if_neg hc, nlFlush, List.append_eq]
    rw [ih (fun h => ha (List.mem_cons_of_mem c h))]
    simp

theorem collapseGo_nl (k : Nat) (rest : List Char) (p : Nat) :
    collapseGo (List.replicate k '\n' ++ rest) p = collapseGo rest (p + k) := by
  induction k generalizing p with
  | zero => simp
  | succ n ih =>
    simp only [List.replicate_succ, List.cons_append, collapseGo, List.append_eq]
    rw [if_pos trivial, ih]
    have harith : p + 1 + n = p + (n + 1) := by omega
    rw [harith]

theorem nlFlush_succ (n : Nat) :
    nlFlush (n + 1) = List.replicate (if 2 ≤ n then 2 else n + 1) '\n' := by
  unfold nlFlush
  by_cases h : 2 ≤ n
  · rw [if_pos (by omega), if_pos h]
    rfl
  · rw [if_neg (by omega), if_neg h]

theorem collapseGo_end {b : List Char} (p : Nat) (hb : '\n' ∉ b) (hne : b ≠ []) :
    collapseGo b p = nlFlush p ++ b := by
  cases b with
  | nil => exact absurd rfl hne
  | cons c cs =>
    have hc : c ≠ '\n' := fun h => hb (h ▸ List.mem_cons_self c cs)
    simp only [collapseGo, if_neg hc]
    rw [collapseGo_no_nl (fun h => hb (List.mem_cons_of_mem c h))]

/-- C3, amended.  A run of `n` blank lines between two non-blank lines is
a run of `n + 1` consecutive newlines in the joined output; the collapse
step rewrites it to exactly one blank line whenever `n ≥ 2` (three or more
newlines) and preserves it for `n ∈ \x7b0, 1\x7d` — the boundary differs from
the claim, which asserted preservation for `n = 2` as well. -/
theorem c3_blank_collapse_amended (a b : List Char) (n : Nat)
    (ha : '\n' ∉ a) (hb : '\n' ∉ b) (hbne : b ≠ []) :
    collapseNL (a ++ List.replicate (n + 1) '\n' ++ b) =
      a ++ List.replicate (if 2 ≤ n then 2 else n + 1) '\n' ++ b := by
  unfold collapseNL
  rw [List.append_assoc, collapseGo_pass _ ha, collapseGo_nl, collapseGo_end _ hb hbne]
  rw [show 0 + (n + 1) = n + 1 by omega, nlFlush_succ, List.append_assoc]

/-- C3, witness: two blank lines between `A` and `B` collapse to one. -/
theorem c3_witness :
    collapseNL ("A".data ++ List.replicate 3 '\n' ++ "B".data) =
      "A".data ++ List.replicate 2 '\n' ++ "B".data := by
  have h := c3_blank_collapse_amended "A".data "B".data 2 (by decide) (by decide) (by decide)
  simpa using h

theorem colon_mem_of_title {line : List Char}
    (h : "title:".data.isPrefixOf (pyLower line) = true) : ':' ∈ line := by
  rw [List.isPrefixOf_iff_prefix] at h
  obtain ⟨t, ht⟩ := h
  have hc : ':' ∈ pyLower line := by
    rw [← ht]
    have : ':' ∈ "title:".data := by decide
    exact List.mem_append_left t this
  obtain ⟨c, hmem, hcl⟩ := List.mem_map.mp hc
  have := toLower_eq_colon hcl
  exact this ▸ hmem

theorem pySplitOnce_get1_of_mem {line : List Char} (h : ':' ∈ line) :
    ∃ v, (pySplitOnce ':' line).get? 1 = some v := by
  unfold pySplitOnce
  have hne : ¬(line.dropWhile fun c => c ≠ ':').isEmpty = true := by
    rw [List.isEmpty_iff]
    intro hnil
    have := List.dropWhile_eq_nil_iff.mp hnil _ h
    simp at this
  rw [if_neg hne]
  exact ⟨_, rfl⟩

theorem classifyRev_isSome (line : List Char) (rest : List (List Char)) :
    ∃ es, SP.classifyRev line rest = some es := by
  unfold SP.classifyRev
  dsimp only
  repeat' split
  all_goals try exact ⟨_, rfl⟩
  have ht : "title:".data.isPrefixOf (pyLower line) = true := by assumption
  have heq : (pySplitOnce ':' line).get? 1 = none := by assumption
  obtain ⟨v, hv⟩ := pySplitOnce_get1_of_mem (colon_mem_of_title ht)
  rw [hv] at heq
  cases heq

theorem parseLines_isSome (ls : List (List Char)) : (SP.parseLines ls).isSome = true := by
  induction ls with
  | nil => rfl
  | cons l rest ih =>
    obtain ⟨es, hes⟩ := classifyRev_isSome (pyRstrip l) rest
    obtain ⟨tail, htail⟩ := Option.isSome_iff_exists.mp ih
    unfold SP.parseLines
    rw [hes, htail]
    rfl

/-- C9 (confirmed).  The reverse parser returns a result for every input
string: the only Python operation in it that could raise — the
`line.split(':', 1)[1]` indexing of the title rule — is guarded by the
`title:` prefix test, which guarantees a colon in the line.  (The forward
converters contain no fallible operation at all and are embedded as total
functions, so their half of the claim holds by construction.) -/
theorem c9_totality (content : List Char) : (SP.parse_fountain content).isSome = true :=
  parseLines_isSome _

theorem mem_dropWhile_of_mem {p : Char → Bool} {c : Char} {l : List Char}
    (hc : c ∈ l) (hp : p c = false) : c ∈ l.dropWhile p := by
  have hta := List.takeWhile_append_dropWhile p l
  rw [← hta] at hc
  rcases List.mem_append.mp hc with h | h
  · exact absurd (List.mem_takeWhile_imp h) (by simp [hp])
  · exact h

theorem mem_pyStrip {c : Char} {cs : List Char} (hc : c ∈ cs) (hp : isPyWS c = false) :
    c ∈ pyStrip cs := by
  unfold pyStrip pyLstrip pyRstrip
  exact List.mem_reverse.mpr
    (mem_dropWhile_of_mem (List.mem_reverse.mpr (mem_dropWhile_of_mem hc hp)) hp)

theorem pyStrip_nonempty_of_isUpper {cs : List Char} (h : pyIsUpper cs = true) :
    (pyStrip cs).isEmpty = false := by
  obtain ⟨c, hc, hcup⟩ := List.any_eq_true.mp ((Bool.and_eq_true _ _).mp h).1
  have hws : isPyWS c = false := by
    rw [Bool.eq_false_iff]
    intro hw
    have h1 := (isUpper_iff c).mp hcup
    have h2 := (isPyWS_toNat c).mp hw
    omega
  have hmem := mem_pyStrip hc hws
  rcases hsc : pyStrip cs with _ | ⟨d, ds⟩
  · rw [hsc] at hmem
    cases hmem
  · rfl

/-- C7, amended.  The reverse character-cue rule holds as claimed *provided
the length and starts-with-`(` tests are read on the right-stripped line
with its leading whitespace retained* (the code tests `len(line) < 40` and
`line.startswith('(')` before stripping): an upper-case line of total length
under 40 that does not start with `(`, whose next non-blank line is not
upper case or starts with `(`, and that no earlier rule (blank, title,
scene heading, either transition rule) matches, is classified `character`
with the line itself as text. -/
theorem c7_character_rule_amended (line : List Char) (rest : List (List Char))
    (h_up : pyIsUpper line = true) (h_len : line.length < 40)
    (h_paren : "(".data.isPrefixOf line = false) (h_look : SP.lookaheadOk rest = true)
    (h_title : "title:".data.isPrefixOf (pyLower line) = false)
    (h_scene : sceneAltOk line = false)
    (hF : hasSub "FADE".data line = false) (hC : hasSub "CUT TO".data line = false)
    (hD : hasSub "DISSOLVE".data line = false) (hS : hasSub "SMASH CUT".data line = false)
    (h_gt : ">".data.isPrefixOf line = false) :
    SP.classifyRev line rest = some [⟨SP.ElemType.character, line⟩] := by
  have hb := pyStrip_nonempty_of_isUpper h_up
  unfold SP.classifyRev
  simp only [hb, h_title, h_scene, hF, hC, hD, hS, h_gt, h_up, h_look, h_paren, h_len,
    Bool.false_eq_true, Bool.true_eq_false, if_false, false_or, or_false, and_false,
    false_and, true_and, and_true, if_true, not_false_eq_true, if_neg, ite_false]

/-- C7, witness: the rule at a concrete cue line followed by dialogue. -/
theorem c7_witness :
    SP.classifyRev "BOB".data ["hello".data] = some [⟨SP.ElemType.character, "BOB".data⟩] :=
  c7_character_rule_amended "BOB".data ["hello".data] (by decide) (by decide) (by decide)
    (by decide) (by decide) (by decide) (by decide) (by decide) (by decide) (by decide)
    (by decide)

/-- C6, amended.  The one-to-one mapping fails in both cited places and
holds in this weaker form: in the reverse direction a line yields at most
one element — exactly none when the line is blank (no `Blank` element
exists) and exactly one otherwise; in the transcript forward direction a
line yields one or two output lines (two only from the `CHARACTER: dialogue`
colon rule). -/
theorem c6_line_mapping_amended :
    (∀ line rest es, SP.classifyRev line rest = some es →
      es.length ≤ 1 ∧ ((pyStrip line).isEmpty = true ↔ es = [])) ∧
    (∀ line, 1 ≤ (SP.emitLines line).length ∧ (SP.emitLines line).length ≤ 2) := by
  constructor
  · intro line rest es h
    unfold SP.classifyRev at h
    dsimp only at h
    repeat' split at h
    all_goals first
      | (injection h with h
         subst h
         refine ⟨by simp, ?_⟩
         simp_all)
      | injection h
  · intro line
    unfold SP.emitLines
    dsimp only
    repeat' split
    all_goals simp

/-- C6, witness: the element-count bounds at concrete lines. -/
theorem c6_witness :
    ((([] : List SP.Element)).length ≤ 1 ∧
      ((pyStrip " ".data).isEmpty = true ↔ ([] : List SP.Element) = [])) ∧
    (1 ≤ (SP.emitLines "STAN: hi".data).length ∧ (SP.emitLines "STAN: hi".data).length ≤ 2) :=
  ⟨c6_line_mapping_amended.1 " ".data [] [] (by decide),
   c6_line_mapping_amended.2 "STAN: hi".data⟩

theorem intercalate_cons_ne_nil (sep a : List Char) {l : List (List Char)} (h : l ≠ []) :
    List.intercalate sep (a :: l) = a ++ sep ++ List.intercalate sep l := by
  cases l with
  | nil => exact absurd rfl h
  | cons b t =>
    simp [List.intercalate, List.intersperse]

/-- C5, amended.  The precedence is the reverse of the claim: a *non-empty*
hint always determines the rendered title — the document's own `Title:` line
is consulted only when the hint is empty.  For every Fountain input and
every non-empty hint the rendered header carries the hint. -/
theorem c5_title_hint_amended (content hint : List Char) (h : hint ≠ []) :
    ∃ rest, SP.fountain_to_html content hint =
      some (("<html><head><meta charset=\"utf-8\"></head><body>\n" ++
        "<div class=\"title-header\"><h1>").data ++ hint ++ ("</h1></div>".data ++ rest)) := by
  have hs := parseLines_isSome (pySplit '\n' content)
  obtain ⟨elems, he⟩ := Option.isSome_iff_exists.mp hs
  have hhe : hint.isEmpty = false := by
    cases hint with
    | nil => exact absurd rfl h
    | cons c cs => rfl
  have ht : SP.resolveTitle elems hint = hint := by
    unfold SP.resolveTitle
    rw [if_neg]
    simp [hhe]
  unfold SP.fountain_to_html SP.parse_fountain
  rw [he]
  dsimp only
  rw [ht, hhe]
  simp only [Bool.false_eq_true, if_false]
  refine ⟨['\n'] ++ List.intercalate ['\n']
    ((elems.foldl (fun acc e => acc ++ SP.elemHtml e) []) ++ ["</body></html>".data]), ?_⟩
  simp only [List.singleton_append, List.cons_append, List.nil_append]
  rw [intercalate_cons_ne_nil _ _ (by simp), intercalate_cons_ne_nil _ _ (by simp)]
  congr 1
  have hlit : ("<html><head><meta charset=\"utf-8\"></head><body>\n" ++
      "<div class=\"title-header\"><h1>").data =
      "<html><head><meta charset=\"utf-8\"></head><body>".data ++ ['\n'] ++
        "<div class=\"title-header\"><h1>".data := by decide
  rw [hlit]
  simp [List.append_assoc]

/-- C5, witness: a document with a `Title:` line rendered under hint `Bar`. -/
theorem c5_witness :
    ∃ rest, SP.fountain_to_html "Title: Foo".data "Bar".data =
      some (("<html><head><meta charset=\"utf-8\"></head><body>\n" ++
        "<div class=\"title-header\"><h1>").data ++ "Bar".data ++
          ("</h1></div>".data ++ rest)) :=
  c5_title_hint_amended "Title: Foo".data "Bar".data (by decide)

/-! ### Claim C2: supporting lemmas on stripping, upper-casing and the
scene/transition rules -/

theorem head?_pyLstrip_not_ws {cs : List Char} {c : Char} (h : (pyLstrip cs).head? = some c) :
    isPyWS c = false := by
  have hd := List.head?_dropWhile_not isPyWS cs
  unfold pyLstrip at h
  rw [h] at hd
  exact hd

theorem pyLstrip_of_head {cs : List Char}
    (h : ∀ c, cs.head? = some c → isPyWS c = false) : pyLstrip cs = cs := by
  cases cs with
  | nil => rfl
  | cons c t =>
    unfold pyLstrip
    rw [List.dropWhile_cons_of_neg]
    simp [h c rfl]

theorem pyRstrip_of_getLast {cs : List Char}
    (h : ∀ c, cs.getLast? = some c → isPyWS c = false) : pyRstrip cs = cs := by
  show (pyLstrip cs.reverse).reverse = cs
  rw [@pyLstrip_of_head cs.reverse (fun c hc => h c (by rwa [List.head?_reverse] at hc)),
    List.reverse_reverse]

theorem getLast?_pyRstrip_not_ws {cs : List Char} {c : Char}
    (h : (pyRstrip cs).getLast? = some c) : isPyWS c = false := by
  unfold pyRstrip at h
  rw [List.getLast?_reverse] at h
  exact head?_pyLstrip_not_ws h

theorem pyRstrip_isPrefix (cs : List Char) : ∃ t, pyRstrip cs ++ t = cs := by
  unfold pyRstrip
  obtain ⟨t, ht⟩ : ∃ t, t ++ cs.reverse.dropWhile isPyWS = cs.reverse :=
    ⟨cs.reverse.takeWhile isPyWS, List.takeWhile_append_dropWhile isPyWS cs.reverse⟩
  exact ⟨t.reverse, by rw [← List.reverse_append, ht, List.reverse_reverse]⟩

theorem head?_pyRstrip {cs : List Char} {c : Char} (h : (pyRstrip cs).head? = some c) :
    cs.head? = some c := by
  obtain ⟨t, ht⟩ := pyRstrip_isPrefix cs
  rcases hr : pyRstrip cs with _ | ⟨d, ds⟩
  · rw [hr] at h
    cases h
  · rw [hr] at h ht
    injection h with h
    subst h
    rw [← ht]
    rfl

theorem head?_pyStrip_not_ws {cs : List Char} {c : Char} (h : (pyStrip cs).head? = some c) :
    isPyWS c = false := by
  unfold pyStrip at h
  exact head?_pyLstrip_not_ws (head?_pyRstrip h)

theorem getLast?_pyStrip_not_ws {cs : List Char} {c : Char}
    (h : (pyStrip cs).getLast? = some c) : isPyWS c = false := by
  unfold pyStrip at h
  exact getLast?_pyRstrip_not_ws h

theorem strip_fixed_of_head_last {cs : List Char}
    (hh : ∀ c, cs.head? = some c → isPyWS c = false)
    (hl : ∀ c, cs.getLast? = some c → isPyWS c = false) : pyStrip cs = cs := by
  unfold pyStrip
  rw [pyLstrip_of_head hh]
  exact pyRstrip_of_getLast hl

theorem pyStrip_idem (cs : List Char) : pyStrip (pyStrip cs) = pyStrip cs :=
  strip_fixed_of_head_last (fun _ h => head?_pyStrip_not_ws h)
    (fun _ h => getLast?_pyStrip_not_ws h)

theorem isPyWS_comp_toUpper : isPyWS ∘ Char.toUpper = isPyWS :=
  funext isPyWS_toUpper

theorem pyLstrip_pyUpper (cs : List Char) : pyLstrip (pyUpper cs) = pyUpper (pyLstrip cs) := by
  unfold pyLstrip pyUpper
  rw [List.dropWhile_map, isPyWS_comp_toUpper]

theorem pyStrip_pyUpper (cs : List Char) : pyStrip (pyUpper cs) = pyUpper (pyStrip cs) := by
  unfold pyStrip pyRstrip
  rw [pyLstrip_pyUpper]
  show (List.dropWhile isPyWS (pyUpper (pyLstrip cs)).reverse).reverse = _
  unfold pyUpper
  rw [← List.map_reverse, List.dropWhile_map, isPyWS_comp_toUpper, ← List.map_reverse]

theorem pyUpper_idem (cs : List Char) : pyUpper (pyUpper cs) = pyUpper cs := by
  unfold pyUpper
  rw [List.map_map]
  exact List.map_congr_left fun c _ => toUpper_idem c

theorem matchCI_pyUpper (p : List Char) (cs : List Char) :
    matchCI p (pyUpper cs) = Option.map pyUpper (matchCI p cs) := by
  induction p generalizing cs with
  | nil => rfl
  | cons q qs ih =>
    cases cs with
    | nil => rfl
    | cons c t =>
      show matchCI (q :: qs) (c.toUpper :: pyUpper t) = _
      unfold matchCI
      rw [toLower_toUpper]
      by_cases hq : q.toLower = c.toLower
      · rw [if_pos hq, if_pos hq, ih]
      · rw [if_neg hq, if_neg hq]
        rfl

theorem sceneTailOk_pyUpper (r : List Char) : sceneTailOk (pyUpper r) = sceneTailOk r := by
  cases r with
  | nil => rfl
  | cons c t =>
    show sceneTailOk (c.toUpper :: pyUpper t) = _
    simp only [sceneTailOk]
    have hdot : (c.toUpper = '.') = (c = '.') := by
      have h46 : ('.' : Char).toNat = 46 := rfl
      rw [eq_iff_iff]
      exact toUpper_eq_of_lt65 c '.' (by omega)
    by_cases hc : c = '.'
    · rw [if_pos (hdot ▸ hc), if_pos hc]
      cases t with
      | nil => rfl
      | cons d t' =>
        show (match (d.toUpper :: pyUpper t').head? with
          | some d => isPyWS d | none => false) = _
        simp only [List.head?_cons]
        rw [isPyWS_toUpper]
    · rw [if_neg fun he => hc (hdot ▸ he), if_neg hc]
      exact isPyWS_toUpper c

theorem sceneAlt_one_pyUpper (alt cs : List Char) :
    (match matchCI alt (pyUpper cs) with | some r => sceneTailOk r | none => false) =
      (match matchCI alt cs with | some r => sceneTailOk r | none => false) := by
  rw [matchCI_pyUpper]
  cases matchCI alt cs with
  | none => rfl
  | some r =>
    show sceneTailOk (pyUpper r) = sceneTailOk r
    exact sceneTailOk_pyUpper r

theorem sceneAltOk_pyUpper (cs : List Char) : sceneAltOk (pyUpper cs) = sceneAltOk cs := by
  simp only [sceneAltOk, sceneAlts, List.any_cons, List.any_nil]
  rw [sceneAlt_one_pyUpper, sceneAlt_one_pyUpper, sceneAlt_one_pyUpper, sceneAlt_one_pyUpper]

theorem matchCI_head {p : Char} {ps cs r : List Char} (h : matchCI (p :: ps) cs = some r) :
    ∃ c t, cs = c :: t ∧ p.toLower = c.toLower := by
  cases cs with
  | nil => simp [matchCI] at h
  | cons c t =>
    unfold matchCI at h
    split at h
    · exact ⟨c, t, rfl, by assumption⟩
    · cases h

theorem sceneAltOk_head {cs : List Char} (h : sceneAltOk cs = true) :
    ∃ c t, cs = c :: t ∧ (c.toLower = 'i' ∨ c.toLower = 'e') := by
  obtain ⟨alt, hmem, halt⟩ := List.any_eq_true.mp h
  fin_cases hmem
  all_goals
    rcases hm : matchCI _ cs with _ | r
  all_goals rw [hm] at halt
  any_goals cases halt
  all_goals obtain ⟨c, t, hcs, hlow⟩ := matchCI_head hm
  · exact ⟨c, t, hcs, Or.inl (by rw [← hlow]; rfl)⟩
  · exact ⟨c, t, hcs, Or.inr (by rw [← hlow]; rfl)⟩
  · exact ⟨c, t, hcs, Or.inl (by rw [← hlow]; rfl)⟩
  · exact ⟨c, t, hcs, Or.inl (by rw [← hlow]; rfl)⟩

theorem toLower_ie_toNat {c : Char} (h : c.toLower = 'i' ∨ c.toLower = 'e') :
    c.toNat = 73 ∨ c.toNat = 69 ∨ c.toNat = 105 ∨ c.toNat = 101 := by
  have hi : ('i' : Char).toNat = 105 := rfl
  have he : ('e' : Char).toNat = 101 := rfl
  rcases h with h | h
  all_goals
    have hn := congrArg Char.toNat h
    rw [toLower_toNat] at hn
  · by_cases hr : 65 ≤ c.toNat ∧ c.toNat ≤ 90
    · rw [if_pos hr] at hn
      omega
    · rw [if_neg hr] at hn
      omega
  · by_cases hr : 65 ≤ c.toNat ∧ c.toNat ≤ 90
    · rw [if_pos hr] at hn
      omega
    · rw [if_neg hr] at hn
      omega

theorem ie_head_props {c : Char} (h : c.toLower = 'i' ∨ c.toLower = 'e') :
    c.isDigit = false ∧ isPyWS c = false ∧ c.toUpper.isDigit = false := by
  have hn := toLower_ie_toNat h
  refine ⟨?_, ?_, ?_⟩
  · rw [Bool.eq_false_iff]
    intro hd
    have := (isDigit_iff c).mp hd
    omega
  · rw [Bool.eq_false_iff]
    intro hw
    have := (isPyWS_toNat c).mp hw
    omega
  · rw [Bool.eq_false_iff]
    intro hd
    have := (isDigit_iff c.toUpper).mp hd
    rw [toUpper_toNat] at this
    by_cases hr : 97 ≤ c.toNat ∧ c.toNat ≤ 122
    · rw [if_pos hr] at this
      omega
    · rw [if_neg hr] at this
      omega

theorem digitWsDrop?_none_of_head {c : Char} {t : List Char} (h : c.isDigit = false) :
    digitWsDrop? (c :: t) = none := by
  unfold digitWsDrop?
  rw [List.takeWhile_cons_of_neg (by simp [h])]
  rfl

theorem stripSceneNum_id_of_head {c : Char} {t : List Char} (h : c.isDigit = false) :
    stripSceneNum (c :: t) = c :: t := by
  unfold stripSceneNum
  rw [digitWsDrop?_none_of_head h]

theorem digitWsDrop?_append {s r : List Char} (h : digitWsDrop? s = some r) :
    ∃ u, s = u ++ r := by
  unfold digitWsDrop? at h
  dsimp only at h
  split at h
  · cases h
  · split at h
    · cases h
    · injection h with h
      subst h
      rw [List.drop_drop]
      exact ⟨_, (List.take_append_drop _ s).symm⟩

theorem sceneMatchFwd_cases {s : List Char} (h : sceneMatchFwd s = true) :
    (sceneAltOk s = true ∧ digitWsDrop? s = none) ∨
      (∃ r, digitWsDrop? s = some r ∧ sceneAltOk r = true) := by
  unfold sceneMatchFwd at h
  rcases (Bool.or_eq_true _ _).mp h with ha | hb
  · left
    refine ⟨ha, ?_⟩
    obtain ⟨c, t, hcs, hie⟩ := sceneAltOk_head ha
    rw [hcs]
    exact digitWsDrop?_none_of_head (ie_head_props hie).1
  · right
    rcases hm : digitWsDrop? s with _ | r
    · rw [hm] at hb
      cases hb
    · rw [hm] at hb
      exact ⟨r, rfl, hb⟩

theorem isEmpty_false_of_pyIsUpper {s : List Char} (h : pyIsUpper s = true) :
    s.isEmpty = false := by
  obtain ⟨c, hc, _⟩ := List.any_eq_true.mp ((Bool.and_eq_true _ _).mp h).1
  rcases s with _ | ⟨d, t⟩
  · cases hc
  · rfl

theorem emitLine_scene {line : List Char} (h : sceneMatchFwd (pyStrip line) = true) :
    Imdb.emitLine line = pyUpper (stripSceneNum (pyStrip line)) := by
  have hne : (pyStrip line).isEmpty = false := by
    rcases he : pyStrip line with _ | ⟨c, t⟩
    · rw [he] at h
      exact absurd h (by decide)
    · rfl
  unfold Imdb.emitLine
  simp only [hne, Bool.false_eq_true, if_false, h, if_true]

theorem emitLine_trans {line : List Char} (hs : sceneMatchFwd (pyStrip line) = false)
    (ht : Imdb.transCondFwd (pyStrip line) = true) :
    Imdb.emitLine line = "> ".data ++ pyStrip line := by
  have hup : pyIsUpper (pyStrip line) = true := ((Bool.and_eq_true _ _).mp ht).1
  have hne := isEmpty_false_of_pyIsUpper hup
  unfold Imdb.emitLine
  simp only [hne, Bool.false_eq_true, if_false, hs, ht, if_true]

theorem emitLine_pyUpper_fixed {x : List Char} (halt : sceneAltOk x = true)
    (hfix : pyStrip x = x) : Imdb.emitLine (pyUpper x) = pyUpper x := by
  obtain ⟨c, t, hcs, hie⟩ := sceneAltOk_head halt
  have hsMF : sceneMatchFwd (pyStrip (pyUpper x)) = true := by
    rw [pyStrip_pyUpper, hfix]
    unfold sceneMatchFwd
    rw [sceneAltOk_pyUpper, halt]
    rfl
  rw [emitLine_scene hsMF, pyStrip_pyUpper, hfix, hcs]
  simp only [pyUpper, List.map_cons]
  rw [stripSceneNum_id_of_head (ie_head_props hie).2.2]
  simp only [List.map_cons, toUpper_idem, List.map_map]
  congr 1
  exact List.map_congr_left fun d _ => toUpper_idem d

theorem emitLine_scene_idem {line : List Char} (h : sceneMatchFwd (pyStrip line) = true) :
    Imdb.emitLine (Imdb.emitLine line) = Imdb.emitLine line := by
  rw [emitLine_scene h]
  rcases sceneMatchFwd_cases h with ⟨ha, hd⟩ | ⟨r, hd, har⟩
  · unfold stripSceneNum
    rw [hd]
    exact emitLine_pyUpper_fixed ha (pyStrip_idem line)
  · unfold stripSceneNum
    rw [hd]
    obtain ⟨c, t, hcs, hie⟩ := sceneAltOk_head har
    obtain ⟨u, hu⟩ := digitWsDrop?_append hd
    have hfix : pyStrip r = r := by
      apply strip_fixed_of_head_last
      · intro d hd'
        rw [hcs, List.head?_cons] at hd'
        injection hd' with hd'
        subst hd'
        exact (ie_head_props hie).2.1
      · intro d hd'
        apply @getLast?_pyStrip_not_ws line d
        rw [hu, List.getLast?_append, hd']
        rfl
    exact emitLine_pyUpper_fixed har hfix

theorem pyIsUpper_marker {s : List Char} (h : pyIsUpper s = true) :
    pyIsUpper ('>' :: ' ' :: s) = true := by
  have h1 := (Bool.and_eq_true _ _).mp h
  unfold pyIsUpper at h1 ⊢
  simp only [List.any_cons, List.all_cons, show ('>' : Char).isUpper = false from rfl,
    show (' ' : Char).isUpper = false from rfl, show ('>' : Char).isLower = false from rfl,
    show (' ' : Char).isLower = false from rfl, Bool.false_or, Bool.not_false, Bool.true_and]
  exact (Bool.and_eq_true _ _).mpr h1

theorem sceneMatchFwd_marker (x : List Char) : sceneMatchFwd ('>' :: x) = false := rfl

theorem suffix_colon_marker {s : List Char} (h : [':'].isSuffixOf s = true) :
    [':'].isSuffixOf ('>' :: ' ' :: s) = true := by
  rw [List.isSuffixOf_iff_suffix] at h ⊢
  exact h.trans ⟨['>', ' '], rfl⟩

theorem hasSub_cons {t l : List Char} (h : hasSub t l = true) (c : Char) :
    hasSub t (c :: l) = true := by
  unfold hasSub at h ⊢
  obtain ⟨i, hir, hip⟩ := List.any_eq_true.mp h
  apply List.any_eq_true.mpr
  refine ⟨i + 1, ?_, ?_⟩
  · rw [List.mem_range] at hir ⊢
    simp only [List.length_cons]
    omega
  · rw [List.drop_succ_cons]
    exact hip

theorem getLast?_marker {s : List Char} (hne : s ≠ []) :
    ('>' :: ' ' :: s).getLast? = s.getLast? := by
  rcases s with _ | ⟨e, s'⟩
  · exact absurd rfl hne
  · rw [List.getLast?_cons_cons, List.getLast?_cons_cons]

theorem emitLine_trans_step {line : List Char} (hs : sceneMatchFwd (pyStrip line) = false)
    (hup : pyIsUpper (pyStrip line) = true)
    (hd : [':'].isSuffixOf (pyStrip line) = true ∨ hasSub " TO:".data (pyStrip line) = true) :
    Imdb.emitLine (Imdb.emitLine line) = "> ".data ++ Imdb.emitLine line := by
  have ht : Imdb.transCondFwd (pyStrip line) = true := by
    unfold Imdb.transCondFwd
    rw [hup]
    rcases hd with h | h
    · rw [h]
      rfl
    · rw [h]
      simp
  have hsne : pyStrip line ≠ [] := by
    have he := isEmpty_false_of_pyIsUpper hup
    intro hnil
    rw [hnil] at he
    cases he
  have hfix2 : pyStrip ('>' :: ' ' :: pyStrip line) = '>' :: ' ' :: pyStrip line := by
    apply strip_fixed_of_head_last
    · intro d hd'
      rw [List.head?_cons] at hd'
      injection hd' with hd'
      subst hd'
      rfl
    · intro d hd'
      rw [getLast?_marker hsne] at hd'
      exact getLast?_pyStrip_not_ws hd'
  have hs2 : sceneMatchFwd (pyStrip ('>' :: ' ' :: pyStrip line)) = false := by
    rw [hfix2]
    exact sceneMatchFwd_marker _
  have ht2 : Imdb.transCondFwd (pyStrip ('>' :: ' ' :: pyStrip line)) = true := by
    rw [hfix2]
    unfold Imdb.transCondFwd
    rw [pyIsUpper_marker hup]
    rcases hd with h | h
    · rw [suffix_colon_marker h]
      rfl
    · rw [hasSub_cons (hasSub_cons h ' ') '>']
      simp
  rw [emitLine_trans hs ht]
  have hstep := @emitLine_trans ('>' :: ' ' :: pyStrip line) hs2 ht2
  rw [show "> ".data ++ pyStrip line = '>' :: ' ' :: pyStrip line from rfl, hstep, hfix2]

/-- C2, amended.  Re-classifying the forward converter's own output leaves
every *scene-heading* line unchanged (it is already digit-stripped and
upper-cased), but an emitted *transition* line is not a fixed point: when
the transition matched by ending in `':'` or containing `' TO:'` (as every
`"> ..."` line still does), a second pass prepends another `"> "` marker. -/
theorem c2_idempotence_amended :
    (∀ line, sceneMatchFwd (pyStrip line) = true →
      Imdb.emitLine (Imdb.emitLine line) = Imdb.emitLine line) ∧
    (∀ line, sceneMatchFwd (pyStrip line) = false → pyIsUpper (pyStrip line) = true →
      ([':'].isSuffixOf (pyStrip line) = true ∨ hasSub " TO:".data (pyStrip line) = true) →
      Imdb.emitLine (Imdb.emitLine line) = "> ".data ++ Imdb.emitLine line) :=
  ⟨fun _ h => emitLine_scene_idem h, fun _ hs hup hd => emitLine_trans_step hs hup hd⟩

/-- C2, witness: a scene heading is a fixed point of re-emission, a
transition line gains one more marker. -/
theorem c2_witness :
    Imdb.emitLine (Imdb.emitLine "int. house - day".data) =
      Imdb.emitLine "int. house - day".data ∧
    Imdb.emitLine (Imdb.emitLine "CUT TO:".data) = "> ".data ++ Imdb.emitLine "CUT TO:".data :=
  ⟨c2_idempotence_amended.1 "int. house - day".data (by decide),
   c2_idempotence_amended.2 "CUT TO:".data (by decide) (by decide) (Or.inl (by decide))⟩
